import Mathlib

/-!
Shallow embedding of `src/main.go`, a minimal websocket chat relay.

The Go program keeps three pieces of package-level shared state: a map
`users` from identity to connection, an append-only slice `messages` with
a running `msgID` counter, and a slice `sessions` of chat destinations.
We embed them as a `ServerState` record.  The websocket transport handle
is modelled as a numeric handle id; `time.Time` values are modelled as
`Nat` instants supplied by the caller; Go byte-strings are modelled as
Lean `String`s (first byte = first character, faithful for ASCII data).
A Go runtime panic (indexing into an empty string) is modelled as the
`none` branch of an `Option`-valued step.
-/

/-- Go struct `User` (main.go lines 15-19).  `WS` is the transport handle,
modelled as a numeric handle id. -/
structure GoUser where
  Username : String
  Avatar : String
  WS : Nat
  deriving DecidableEq

/-- Go struct `Message` (main.go lines 22-30); `ID` is an `int64`,
`Timestamp` a `time.Time` modelled as `Nat`. -/
structure Message where
  ID : Int
  From : String
  To : String
  Content : String
  Timestamp : Nat
  IsRead : Bool
  Avatar : String
  deriving DecidableEq

/-- Go struct `Session` (main.go lines 33-41). -/
structure Session where
  ID : String
  Name : String
  Avatar : String
  IsGroup : Bool
  LastMsg : String
  LastTime : Nat
  Unread : Nat
  deriving DecidableEq

/-- The package-level shared state of main.go lines 43-50: the user map,
the message log, the session directory, and the id counter (`int64`,
initialised to 1). -/
structure ServerState where
  users : List (String × GoUser)
  messages : List Message
  sessions : List Session
  msgID : Int
  deriving DecidableEq

/-- Wraparound of Go `int64` arithmetic. -/
def int64wrap (x : Int) : Int := (x + 2 ^ 63) % 2 ^ 64 - 2 ^ 63

/-- Go `string(s[0])`: the one-character string made of the first byte of
`s`.  Returns `none` when `s` is empty, modelling the runtime
index-out-of-range panic Go raises there. -/
def goFirstChar (s : String) : Option String :=
  if s.isEmpty then none else some (String.singleton (s.get 0))

/-- Go `string(s[0])` at a call site where the caller has already checked
that `s` is nonempty (the handshake path, main.go line 90). -/
def goAvatar (s : String) : String := String.singleton (s.get 0)

/-- The seeded public room appended by `init()` (main.go lines 53-62);
its `time.Now()` stamp is modelled as instant 0. -/
def initSession : Session :=
  { ID := "public-chat", Name := "公共聊天室",
    Avatar := "https://img.icons8.com/fluency/96/000000/chat.png",
    IsGroup := true, LastMsg := "欢迎加入公共聊天室", LastTime := 0, Unread := 0 }

/-- The state after package initialisation: empty user map, empty log,
one seeded session, `msgID = 1`. -/
def initState : ServerState :=
  { users := [], messages := [], sessions := [initSession], msgID := 1 }

/-- Go map assignment `users[k] = v` (main.go line 88): a Go map holds one
binding per key, so any old binding for `k` is replaced; iteration order
of a Go map is unspecified, so the list order carries no meaning. -/
def mapInsert (m : List (String × GoUser)) (k : String) (v : GoUser) :
    List (String × GoUser) :=
  m.filter (fun p => p.1 != k) ++ [(k, v)]

/-- Go `delete(users, k)` (main.go line 98): unconditionally removes the
binding for `k`, whichever connection installed it. -/
def mapDelete (m : List (String × GoUser)) (k : String) : List (String × GoUser) :=
  m.filter (fun p => p.1 != k)

/-- main.go lines 87-93: register the user under its identity, deriving
the avatar from the first byte of the (nonempty) username. -/
def register (st : ServerState) (username : String) (ws : Nat) : ServerState :=
  { st with users := mapInsert st.users username ⟨username, goAvatar username, ws⟩ }

/-- main.go lines 96-100: the deferred deregistration run when a handler
returns. -/
def deregister (st : ServerState) (username : String) : ServerState :=
  { st with users := mapDelete st.users username }

/-- main.go lines 81-93: the handshake.  A receive error or an empty
username returns without registering (`none`); otherwise the connection
is registered. -/
def handshake (st : ServerState) (username : String) (ws : Nat) : Option ServerState :=
  if username = "" then none else some (register st username ws)

/-- main.go lines 110-117, the `msgMu` critical section: overwrite `ID`
(and advance the counter), `Timestamp`, `IsRead`, `Avatar`, then append to
the log.  The `none` branch models the Go runtime panic raised by
`string(msg.From[0])` when `msg.From` is empty - there is no guard in the
source. -/
def stampMsg (st : ServerState) (msg : Message) (now : Nat) :
    Option (ServerState × Message) :=
  match goFirstChar msg.From with
  | none => none
  | some av =>
    let m := { msg with ID := st.msgID, Timestamp := now, IsRead := false, Avatar := av }
    some ({ st with msgID := int64wrap (st.msgID + 1), messages := st.messages ++ [m] }, m)

/-- main.go lines 120-126: scan the session directory for the first
session whose `ID` equals the recipient, overwrite its `LastMsg` and
`LastTime`, and stop (`break`).  The `Bool` records whether the loop found
a session (took the `break`). -/
def updateSummary : List Session → String → String → Nat → List Session × Bool
  | [], _, _, _ => ([], false)
  | s :: rest, recip, c, t =>
    if s.ID == recip then ({ s with LastMsg := c, LastTime := t } :: rest, true)
    else
      let r := updateSummary rest recip c t
      (s :: r.1, r.2)

/-- main.go lines 65-74 (`broadcast`): send the message to every entry of
the user map except those whose `Username` field equals `msg.From`.
Returns the list of performed sends as (handle, payload) pairs. -/
def broadcastSends (us : List (String × GoUser)) (m : Message) : List (Nat × Message) :=
  us.filterMap (fun p => if p.2.Username == m.From then none else some (p.2.WS, m))

/-- One iteration of the Active receive loop (main.go lines 103-132) on a
successfully received frame `msg` at instant `now`, for the connection
with handle `ws`: stamp and append (lines 110-117), update the session
summary (lines 120-126), broadcast (line 129), echo to the sender
(line 131).  Returns the new state and the list of sends performed;
`none` models the panic of the unguarded `string(msg.From[0])`. -/
def activeStep (st : ServerState) (ws : Nat) (msg : Message) (now : Nat) :
    Option (ServerState × List (Nat × Message)) :=
  match stampMsg st msg now with
  | none => none
  | some (st1, m) =>
    let st2 := { st1 with sessions := (updateSummary st1.sessions m.To m.Content m.Timestamp).1 }
    some (st2, broadcastSends st2.users m ++ [(ws, m)])

/-- Repeated Active-loop iterations on a list of (frame, instant) pairs. -/
def runActive (st : ServerState) (ws : Nat) : List (Message × Nat) → Option ServerState
  | [] => some st
  | (msg, now) :: rest =>
    match activeStep st ws msg now with
    | none => none
    | some (st', _) => runActive st' ws rest

/-- An HTTP response of the history endpoint: a status code and an
optional JSON payload (no payload is written on the 400 path). -/
structure HttpResponse where
  status : Nat
  body : Option (List Message)
  deriving DecidableEq

/-- main.go lines 149-156: the history scan collecting, in log order,
every message whose `To` equals the requested session id. -/
def historyFor (msgs : List Message) (sessionID : String) : List Message :=
  msgs.foldl (fun res m => if m.To == sessionID then res ++ [m] else res) []

/-- main.go lines 142-160 (`messagesHandler`).  `q` is the raw
`session_id` query parameter (`none` when absent); Go's
`r.URL.Query().Get` returns `""` for a missing parameter, so missing and
empty are indistinguishable and both take the 400 path with no body. -/
def messagesHandler (q : Option String) (msgs : List Message) : HttpResponse :=
  if q.getD "" = "" then ⟨400, none⟩ else ⟨200, some (historyFor msgs (q.getD ""))⟩

/-- The two mutexes of main.go lines 47-48. -/
inductive Lk
  | userMu
  | msgMu
  deriving DecidableEq

/-- The shared-state operations named by the spec's critical-section
description. -/
inductive SharedOp
  | appendAndStamp
  | summaryUpdate
  | fanout
  | echoSend
  | historyRead
  | sessionListRead
  deriving DecidableEq

/-- The lock set actually held at each shared-state operation of the
Active loop body, read off main.go lines 109-131: `msgMu` is held for
lines 110-117 (released at line 117), NO lock is held for the session
directory update of lines 120-126, `userMu` is held inside `broadcast`,
and no lock is held for the echo send. -/
def wsLoopLocks : List (List Lk × SharedOp) :=
  [([Lk.msgMu], SharedOp.appendAndStamp), ([], SharedOp.summaryUpdate),
   ([Lk.userMu], SharedOp.fanout), ([], SharedOp.echoSend)]

/-- main.go lines 136-139: `sessionsHandler` reads the `sessions` slice
holding no lock at all. -/
def sessionsHandlerLocks : List (List Lk × SharedOp) := [([], SharedOp.sessionListRead)]

/-- main.go lines 149-156: the history scan runs with `msgMu` held. -/
def messagesHandlerLocks : List (List Lk × SharedOp) := [([Lk.msgMu], SharedOp.historyRead)]

/-- The message as stamped by the server (main.go lines 111-115): the
client-supplied `ID`, `Timestamp`, `IsRead` and `Avatar` are overwritten,
while `From`, `To` and `Content` are kept. -/
def stampedOf (st : ServerState) (msg : Message) (now : Nat) : Message :=
  { msg with ID := st.msgID, Timestamp := now, IsRead := false, Avatar := goAvatar msg.From }

/-- A concrete inbound frame: the client filled `From`, `To`, `Content`
and also sent bogus server-owned fields, which the server must overwrite. -/
def msgDemo : Message :=
  { ID := 99, From := "alice", To := "public-chat", Content := "hi",
    Timestamp := 77, IsRead := true, Avatar := "zz" }

/-- A second concrete inbound frame. -/
def msgDemo2 : Message :=
  { ID := 0, From := "bob", To := "alice", Content := "yo",
    Timestamp := 0, IsRead := false, Avatar := "" }

/-- A concrete inbound frame addressed to a session id that is not in the
directory. -/
def msgToNowhere : Message :=
  { ID := 4, From := "alice", To := "nonexistent-id", Content := "hi",
    Timestamp := 0, IsRead := false, Avatar := "" }

/-- A concrete registry state: "alice" on handle 1, "bob" on handle 2. -/
def demoState : ServerState := register (register initState "alice" 1) "bob" 2

/-! ## Helper lemmas -/

theorem isEmpty_false_of_ne (s : String) (h : s ≠ "") : s.isEmpty = false := by
  simpa using mt (String.isEmpty_iff s).mp h

theorem goFirstChar_of_ne (s : String) (h : s ≠ "") : goFirstChar s = some (goAvatar s) := by
  simp [goFirstChar, goAvatar, isEmpty_false_of_ne s h]

theorem int64wrap_of_small (x : Int) (h0 : 0 ≤ x) (h1 : x < 2 ^ 63) : int64wrap x = x := by
  unfold int64wrap; omega

theorem stampMsg_of_ne (st : ServerState) (msg : Message) (now : Nat) (h : msg.From ≠ "") :
    stampMsg st msg now =
      some ({ st with msgID := int64wrap (st.msgID + 1),
                      messages := st.messages ++ [stampedOf st msg now] },
            stampedOf st msg now) := by
  simp [stampMsg, goFirstChar_of_ne msg.From h, stampedOf]

theorem activeStep_of_ne (st : ServerState) (ws : Nat) (msg : Message) (now : Nat)
    (h : msg.From ≠ "") :
    activeStep st ws msg now =
      some ({ users := st.users,
              messages := st.messages ++ [stampedOf st msg now],
              sessions := (updateSummary st.sessions msg.To msg.Content now).1,
              msgID := int64wrap (st.msgID + 1) },
            broadcastSends st.users (stampedOf st msg now) ++ [(ws, stampedOf st msg now)]) := by
  simp [activeStep, stampMsg_of_ne st msg now h, stampedOf]

theorem updateSummary_snd_iff (ss : List Session) (recip c : String) (t : Nat) :
    (updateSummary ss recip c t).2 = true ↔ ∃ s ∈ ss, s.ID = recip := by
  induction ss with
  | nil => simp [updateSummary]
  | cons s rest ih =>
    by_cases h : s.ID = recip
    · simp [updateSummary, beq_iff_eq, h]
    · simp [updateSummary, beq_iff_eq, h, ih]

theorem updateSummary_not_found (ss : List Session) (recip c : String) (t : Nat)
    (h : ∀ s ∈ ss, s.ID ≠ recip) :
    updateSummary ss recip c t = (ss, false) := by
  induction ss with
  | nil => simp [updateSummary]
  | cons s rest ih =>
    have h1 : s.ID ≠ recip := h s (by simp)
    have h2 : ∀ x ∈ rest, x.ID ≠ recip := fun x hx => h x (by simp [hx])
    simp [updateSummary, beq_iff_eq, h1, ih h2]

theorem updateSummary_ids (ss : List Session) (recip c : String) (t : Nat) :
    (updateSummary ss recip c t).1.map Session.ID = ss.map Session.ID := by
  induction ss with
  | nil => simp [updateSummary]
  | cons s rest ih =>
    by_cases h : s.ID = recip
    · simp [updateSummary, beq_iff_eq, h]
    · simp [updateSummary, beq_iff_eq, h, ih]

theorem updateSummary_found_mem (ss : List Session) (recip c : String) (t : Nat)
    (h : (updateSummary ss recip c t).2 = true) :
    ∃ s ∈ (updateSummary ss recip c t).1, s.ID = recip ∧ s.LastMsg = c ∧ s.LastTime = t := by
  induction ss with
  | nil => simp [updateSummary] at h
  | cons s rest ih =>
    by_cases hh : s.ID = recip
    · refine ⟨{ s with LastMsg := c, LastTime := t }, ?_, hh, rfl, rfl⟩
      simp [updateSummary, beq_iff_eq, hh]
    · simp only [updateSummary, beq_iff_eq] at h ⊢
      rw [if_neg hh] at h ⊢
      obtain ⟨x, hx, hprop⟩ := ih h
      exact ⟨x, List.mem_cons_of_mem s hx, hprop⟩

theorem foldl_collect_eq_filter (p : Message → Bool) (l acc : List Message) :
    l.foldl (fun res m => if p m then res ++ [m] else res) acc = acc ++ l.filter p := by
  induction l generalizing acc with
  | nil => simp
  | cons m rest ih =>
    by_cases h : p m
    · simp [List.foldl_cons, h, ih, List.filter_cons]
    · simp [List.foldl_cons, h, ih, List.filter_cons]

theorem historyFor_eq_filter (msgs : List Message) (sid : String) :
    historyFor msgs sid = msgs.filter (fun m => m.To == sid) := by
  simpa [historyFor] using foldl_collect_eq_filter (fun m => m.To == sid) msgs []

theorem broadcastSends_eq (us : List (String × GoUser)) (m : Message) :
    broadcastSends us m
      = (us.filter (fun p => p.2.Username != m.From)).map (fun p => (p.2.WS, m)) := by
  induction us with
  | nil => rfl
  | cons p rest ih =>
    by_cases h : p.2.Username = m.From
    · simp [broadcastSends, List.filterMap_cons, List.filter_cons, beq_iff_eq, h] at ih ⊢
      exact ih
    · simp [broadcastSends, List.filterMap_cons, List.filter_cons, beq_iff_eq, h] at ih ⊢
      exact ih

theorem lookup_mapInsert (m : List (String × GoUser)) (k : String) (v : GoUser) :
    List.lookup k (mapInsert m k v) = some v := by
  unfold mapInsert
  induction m with
  | nil => simp [List.lookup]
  | cons p rest ih =>
    by_cases h : p.1 = k
    · simpa [List.filter_cons, bne_iff_ne, h] using ih
    · have hkp : (k == p.1) = false := by simpa [beq_eq_false_iff_ne] using Ne.symm h
      simpa [List.filter_cons, bne_iff_ne, h, List.lookup, hkp] using ih

theorem lookup_mapDelete (m : List (String × GoUser)) (k : String) :
    List.lookup k (mapDelete m k) = none := by
  unfold mapDelete
  induction m with
  | nil => rfl
  | cons p rest ih =>
    by_cases h : p.1 = k
    · simpa [List.filter_cons, bne_iff_ne, h] using ih
    · have hkp : (k == p.1) = false := by simpa [beq_eq_false_iff_ne] using Ne.symm h
      simpa [List.filter_cons, bne_iff_ne, h, List.lookup, hkp] using ih

theorem countP_mapInsert (m : List (String × GoUser)) (k : String) (v : GoUser) :
    (mapInsert m k v).countP (fun p => p.1 == k) = 1 := by
  unfold mapInsert
  rw [List.countP_append]
  have h0 : (m.filter (fun p => p.1 != k)).countP (fun p => p.1 == k) = 0 := by
    rw [List.countP_eq_zero]
    intro a ha
    have := List.of_mem_filter ha
    simp_all [bne_iff_ne, beq_iff_eq]
  simp [h0, List.countP_cons]

theorem runActive_ids_aux (inputs : List (Message × Nat)) : ∀ (st : ServerState) (ws : Nat),
    (∀ p ∈ inputs, (p.1).From ≠ "") →
    st.msgID = (st.messages.length : Int) + 1 →
    st.messages.map Message.ID = (List.range' 1 st.messages.length).map (fun n => (n : Int)) →
    st.messages.length + inputs.length + 1 < 2 ^ 63 →
    ∃ st', runActive st ws inputs = some st' ∧
      st'.messages.length = st.messages.length + inputs.length ∧
      st'.msgID = (st'.messages.length : Int) + 1 ∧
      st'.messages.map Message.ID
        = (List.range' 1 st'.messages.length).map (fun n => (n : Int)) := by
  induction inputs with
  | nil =>
    intro st ws _ h2 h3 _
    exact ⟨st, rfl, by simp, h2, h3⟩
  | cons q rest ih =>
    intro st ws h1 h2 h3 hlen
    obtain ⟨msg, now⟩ := q
    have hne : msg.From ≠ "" := h1 (msg, now) (by simp)
    simp only [List.length_cons] at hlen
    have hwrap : int64wrap (st.msgID + 1) = (st.messages.length : Int) + 2 := by
      rw [h2]
      have hb : (st.messages.length : Int) + 1 + 1 < 2 ^ 63 := by omega
      have h0 : (0 : Int) ≤ (st.messages.length : Int) + 1 + 1 := by omega
      rw [int64wrap_of_small _ h0 hb]; ring
    have hstep := activeStep_of_ne st ws msg now hne
    have hrun : runActive st ws ((msg, now) :: rest)
        = runActive { users := st.users,
                      messages := st.messages ++ [stampedOf st msg now],
                      sessions := (updateSummary st.sessions msg.To msg.Content now).1,
                      msgID := int64wrap (st.msgID + 1) } ws rest := by
      simp [runActive, hstep]
    rw [hrun]
    obtain ⟨st', hr, hlen', hid', hids'⟩ :=
      ih { users := st.users,
           messages := st.messages ++ [stampedOf st msg now],
           sessions := (updateSummary st.sessions msg.To msg.Content now).1,
           msgID := int64wrap (st.msgID + 1) } ws
        (fun p hp => h1 p (by simp [hp]))
        (by simp [hwrap, List.length_append]; omega)
        (by
          simp only [List.map_append, h3, List.length_append, List.length_singleton]
          have hsid : (stampedOf st msg now).ID = st.msgID := rfl
          simp [hsid, h2, List.range'_concat]
          ring)
        (by simp [List.length_append]; omega)
    refine ⟨st', hr, ?_, hid', hids'⟩
    simp only [List.length_append, List.length_singleton] at hlen'
    simp only [List.length_cons]
    omega

/-! ## Claims -/

/-- C1 (code bug): the spec requires a message frame with an empty sender
field to be rejected (an EmptySenderError, loop aborted, transition to
Closed) so that the avatar derivation never indexes into an empty sender
identity.  The source has no such guard: `string(msg.From[0])` at main.go
line 115 indexes into the empty string, a runtime index-out-of-range
panic (the `none` outcome of `goFirstChar`/`stampMsg`/`activeStep`),
raised while `msgMu` is still held (the lock acquired at line 110 is
never released on this path).  The message is indeed not appended, but
the graceful rejection path the claim describes does not exist in the
code. -/
theorem c1_empty_sender_unguarded_index :
    goFirstChar "" = none ∧
    stampMsg initState { ID := 0, From := "", To := "public-chat", Content := "hi",
                         Timestamp := 0, IsRead := false, Avatar := "" } 5 = none ∧
    activeStep initState 7 { ID := 0, From := "", To := "public-chat", Content := "hi",
                             Timestamp := 0, IsRead := false, Avatar := "" } 5 = none ∧
    ([Lk.msgMu], SharedOp.appendAndStamp) ∈ wsLoopLocks :=
  ⟨rfl, rfl, rfl, by decide⟩

/-- C2: starting from the initial state, processing any sequence of
inbound frames with nonempty senders assigns ids exactly 1, 2, ..., n in
append order - strictly increasing from 1 with no gaps and no repeats.
(The length bound keeps the `int64` counter below its wraparound point;
it is unreachable by any feasible log.) -/
theorem c2_ids_exactly_one_to_n (ws : Nat) (inputs : List (Message × Nat))
    (h1 : ∀ p ∈ inputs, (p.1).From ≠ "")
    (h2 : inputs.length + 1 < 2 ^ 63) :
    ∃ st', runActive initState ws inputs = some st' ∧
      st'.messages.map Message.ID
        = (List.range' 1 inputs.length).map (fun n => (n : Int)) := by
  obtain ⟨st', hr, hl, _, hids⟩ :=
    runActive_ids_aux inputs initState ws h1 (by simp [initState]) (by simp [initState])
      (by simpa [initState] using h2)
  refine ⟨st', hr, ?_⟩
  rw [hids, hl]
  simp [initState]

/-- Witness for C2 at a concrete two-frame input: ids are `[1, 2]`. -/
theorem c2_ids_exactly_one_to_n_witness :
    ∃ st', runActive initState 0 [(msgDemo, 5), (msgDemo2, 6)] = some st' ∧
      st'.messages.map Message.ID
        = (List.range' 1 ([(msgDemo, 5), (msgDemo2, 6)] : List (Message × Nat)).length).map
            (fun n => (n : Int)) :=
  c2_ids_exactly_one_to_n 0 [(msgDemo, 5), (msgDemo2, 6)] (by decide) (by decide)

/-- C3: for a message processed in the Active state, the fan-out part of
the performed sends is exactly one send per registry entry whose identity
(key, which well-formedness equates with the stored `Username`) differs
from the sender, no send for the entry whose identity equals the sender,
and the originating connection `ws` receives exactly one echo of the same
stamped message, appended after the fan-out. -/
theorem c3_fanout_excludes_sender_echoes_once (st : ServerState) (ws : Nat)
    (msg : Message) (now : Nat)
    (hwf : ∀ p ∈ st.users, (p.2).Username = p.1)
    (hne : msg.From ≠ "") :
    ∃ st' m, activeStep st ws msg now
        = some (st', broadcastSends st.users m ++ [(ws, m)]) ∧
      m.From = msg.From ∧
      broadcastSends st.users m
        = (st.users.filter (fun p => p.1 != msg.From)).map (fun p => ((p.2).WS, m)) := by
  refine ⟨_, stampedOf st msg now, activeStep_of_ne st ws msg now hne, rfl, ?_⟩
  rw [broadcastSends_eq]
  congr 1
  apply List.filter_congr
  intro p hp
  simp [hwf p hp, stampedOf]

/-- Witness for C3: with "alice" (handle 1) and "bob" (handle 2)
registered, a message from "alice" sent on handle 1. -/
theorem c3_fanout_excludes_sender_echoes_once_witness :
    ∃ st' m, activeStep demoState 1 msgDemo 5
        = some (st', broadcastSends demoState.users m ++ [(1, m)]) ∧
      m.From = msgDemo.From ∧
      broadcastSends demoState.users m
        = (demoState.users.filter (fun p => p.1 != msgDemo.From)).map
            (fun p => ((p.2).WS, m)) :=
  c3_fanout_excludes_sender_echoes_once demoState 1 msgDemo 5 (by decide) (by decide)

/-- C4: the history query returns exactly the subsequence of logged
messages whose recipient equals `r`, in original append order (it is the
order-preserving filter of the log, a sublist containing precisely the
matching messages), and the empty sequence - served with HTTP 200, not an
error - when nothing matches. -/
theorem c4_history_is_ordered_recipient_filter (msgs : List Message) (r : String)
    (hr : r ≠ "") :
    messagesHandler (some r) msgs = ⟨200, some (historyFor msgs r)⟩ ∧
    historyFor msgs r = msgs.filter (fun m => m.To == r) ∧
    (historyFor msgs r).Sublist msgs ∧
    (∀ m ∈ historyFor msgs r, m.To = r) ∧
    (∀ m ∈ msgs, m.To = r → m ∈ historyFor msgs r) ∧
    ((∀ m ∈ msgs, m.To ≠ r) → historyFor msgs r = []) := by
  have hf := historyFor_eq_filter msgs r
  refine ⟨by simp [messagesHandler, hr], hf, ?_, ?_, ?_, ?_⟩
  · rw [hf]; exact List.filter_sublist msgs
  · intro m hm; rw [hf] at hm
    simpa [beq_iff_eq] using List.of_mem_filter hm
  · intro m hm hto; rw [hf]
    exact List.mem_filter.mpr ⟨hm, by simp [beq_iff_eq, hto]⟩
  · intro hnone; rw [hf]
    apply List.filter_eq_nil_iff.mpr
    intro m hm
    simpa [beq_iff_eq] using hnone m hm

/-- Witness for C4 on a one-message log queried for "public-chat". -/
theorem c4_history_is_ordered_recipient_filter_witness :
    messagesHandler (some "public-chat") [msgDemo]
        = ⟨200, some (historyFor [msgDemo] "public-chat")⟩ ∧
    historyFor [msgDemo] "public-chat"
        = [msgDemo].filter (fun m => m.To == "public-chat") ∧
    (historyFor [msgDemo] "public-chat").Sublist [msgDemo] ∧
    (∀ m ∈ historyFor [msgDemo] "public-chat", m.To = "public-chat") ∧
    (∀ m ∈ [msgDemo], m.To = "public-chat" → m ∈ historyFor [msgDemo] "public-chat") ∧
    ((∀ m ∈ [msgDemo], m.To ≠ "public-chat") → historyFor [msgDemo] "public-chat" = []) :=
  c4_history_is_ordered_recipient_filter [msgDemo] "public-chat" (by decide)

/-- C5: the session-summary update finds a session if and only if one
with the recipient id already exists (the `Bool` is the loop's found
flag); when none exists it is a no-op returning false; it never creates
or removes a session (the id list is preserved); when found, the matched
session's `LastMsg`/`LastTime` are overwritten; and a full Active-state
step on a message addressed to a nonexistent session id still appends the
stamped message and performs the broadcast and echo while the session
directory stays unchanged. -/
theorem c5_updateSummary_iff_existing_session (ss : List Session) (recip c : String)
    (t : Nat) (st : ServerState) (ws : Nat) (msg : Message) (now : Nat)
    (hne : msg.From ≠ "") (hnos : ∀ s ∈ st.sessions, s.ID ≠ msg.To) :
    ((updateSummary ss recip c t).2 = true ↔ ∃ s ∈ ss, s.ID = recip) ∧
    ((∀ s ∈ ss, s.ID ≠ recip) → updateSummary ss recip c t = (ss, false)) ∧
    ((updateSummary ss recip c t).1.map Session.ID = ss.map Session.ID) ∧
    ((updateSummary ss recip c t).2 = true →
      ∃ s ∈ (updateSummary ss recip c t).1,
        s.ID = recip ∧ s.LastMsg = c ∧ s.LastTime = t) ∧
    (∃ st', activeStep st ws msg now
        = some (st', broadcastSends st.users (stampedOf st msg now)
                      ++ [(ws, stampedOf st msg now)]) ∧
      st'.sessions = st.sessions ∧
      st'.messages = st.messages ++ [stampedOf st msg now]) := by
  refine ⟨updateSummary_snd_iff ss recip c t, updateSummary_not_found ss recip c t,
          updateSummary_ids ss recip c t, updateSummary_found_mem ss recip c t, ?_⟩
  refine ⟨_, activeStep_of_ne st ws msg now hne, ?_, rfl⟩
  have := updateSummary_not_found st.sessions msg.To msg.Content now hnos
  simp [this]

/-- Witness for C5: the seeded directory with recipient "public-chat",
and a full step on a message addressed to "nonexistent-id". -/
theorem c5_updateSummary_iff_existing_session_witness :
    ((updateSummary [initSession] "public-chat" "hi" 3).2 = true
        ↔ ∃ s ∈ [initSession], s.ID = "public-chat") ∧
    ((∀ s ∈ [initSession], s.ID ≠ "public-chat")
        → updateSummary [initSession] "public-chat" "hi" 3 = ([initSession], false)) ∧
    ((updateSummary [initSession] "public-chat" "hi" 3).1.map Session.ID
        = [initSession].map Session.ID) ∧
    ((updateSummary [initSession] "public-chat" "hi" 3).2 = true →
      ∃ s ∈ (updateSummary [initSession] "public-chat" "hi" 3).1,
        s.ID = "public-chat" ∧ s.LastMsg = "hi" ∧ s.LastTime = 3) ∧
    (∃ st', activeStep initState 7 msgToNowhere 5
        = some (st', broadcastSends initState.users (stampedOf initState msgToNowhere 5)
                      ++ [(7, stampedOf initState msgToNowhere 5)]) ∧
      st'.sessions = initState.sessions ∧
      st'.messages = initState.messages ++ [stampedOf initState msgToNowhere 5]) :=
  c5_updateSummary_iff_existing_session [initSession] "public-chat" "hi" 3
    initState 7 msgToNowhere 5 (by decide) (by decide)

/-- C6: two successive handshakes with the same nonempty identity both
succeed, and afterwards the registry holds exactly one entry for that
identity - the one installed by the second handshake (no collision
error, silent replacement). -/
theorem c6_second_registration_replaces (st : ServerState) (u : String) (w1 w2 : Nat)
    (hu : u ≠ "") :
    ∃ st1 st2, handshake st u w1 = some st1 ∧ handshake st1 u w2 = some st2 ∧
      st2.users.countP (fun p => p.1 == u) = 1 ∧
      List.lookup u st2.users = some ⟨u, goAvatar u, w2⟩ := by
  refine ⟨register st u w1, register (register st u w1) u w2,
          by simp [handshake, hu], by simp [handshake, hu], ?_, ?_⟩
  · exact countP_mapInsert _ u _
  · exact lookup_mapInsert _ u _

/-- Witness for C6: "alice" handshakes on handle 1 and again on handle 2. -/
theorem c6_second_registration_replaces_witness :
    ∃ st1 st2, handshake initState "alice" 1 = some st1 ∧
      handshake st1 "alice" 2 = some st2 ∧
      st2.users.countP (fun p => p.1 == "alice") = 1 ∧
      List.lookup "alice" st2.users = some ⟨"alice", goAvatar "alice", 2⟩ :=
  c6_second_registration_replaces initState "alice" 1 2 (by decide)

/-- C7: for any accepted frame with nonempty sender - whatever values the
client put in the server-owned fields - the message that is stored,
fanned out and echoed is the client's `From`/`To`/`Content` with `ID` set
to the current counter, `Timestamp` to the current instant, `IsRead` to
false and `Avatar` to the first character of the sender identity. -/
theorem c7_server_overwrites_stamped_fields (st : ServerState) (ws : Nat)
    (msg : Message) (now : Nat) (hne : msg.From ≠ "") :
    ∃ st' sends, activeStep st ws msg now = some (st', sends) ∧
      st'.messages = st.messages ++ [stampedOf st msg now] ∧
      (∀ p ∈ sends, p.2 = stampedOf st msg now) ∧
      (stampedOf st msg now).From = msg.From ∧
      (stampedOf st msg now).To = msg.To ∧
      (stampedOf st msg now).Content = msg.Content ∧
      (stampedOf st msg now).ID = st.msgID ∧
      (stampedOf st msg now).Timestamp = now ∧
      (stampedOf st msg now).IsRead = false ∧
      (stampedOf st msg now).Avatar = goAvatar msg.From := by
  refine ⟨_, _, activeStep_of_ne st ws msg now hne, rfl, ?_,
          rfl, rfl, rfl, rfl, rfl, rfl, rfl⟩
  intro p hp
  rcases List.mem_append.mp hp with h | h
  · rw [broadcastSends_eq] at h
    obtain ⟨q, _, rfl⟩ := List.mem_map.mp h
    rfl
  · simp only [List.mem_singleton] at h
    rw [h]

/-- Witness for C7: `msgDemo` carries bogus client-sent `ID`/`Timestamp`/
`IsRead`/`Avatar`; from the initial state (counter 1) the stamp keeps
`from`/`to`/`content` and overwrites the rest, with avatar "a" derived
from sender "alice". -/
theorem c7_server_overwrites_stamped_fields_witness :
    goAvatar "alice" = "a" ∧
    (∃ st' sends, activeStep initState 7 msgDemo 5 = some (st', sends) ∧
      st'.messages = initState.messages ++ [stampedOf initState msgDemo 5] ∧
      (∀ p ∈ sends, p.2 = stampedOf initState msgDemo 5) ∧
      (stampedOf initState msgDemo 5).From = msgDemo.From ∧
      (stampedOf initState msgDemo 5).To = msgDemo.To ∧
      (stampedOf initState msgDemo 5).Content = msgDemo.Content ∧
      (stampedOf initState msgDemo 5).ID = initState.msgID ∧
      (stampedOf initState msgDemo 5).Timestamp = 5 ∧
      (stampedOf initState msgDemo 5).IsRead = false ∧
      (stampedOf initState msgDemo 5).Avatar = goAvatar msgDemo.From) :=
  ⟨by decide, c7_server_overwrites_stamped_fields initState 7 msgDemo 5 (by decide)⟩

/-- C8: a request to /api/messages whose `session_id` query parameter is
missing (Go's `Query().Get` then yields "") or supplied empty is answered
with HTTP 400 and no body. -/
theorem c8_missing_session_id_yields_400 (q : Option String) (msgs : List Message)
    (hq : q = none ∨ q = some "") :
    messagesHandler q msgs = ⟨400, none⟩ := by
  rcases hq with rfl | rfl <;> simp [messagesHandler]

/-- Witness for C8: the parameter is absent. -/
theorem c8_missing_session_id_yields_400_witness :
    messagesHandler none [] = ⟨400, none⟩ :=
  c8_missing_session_id_yields_400 none [] (Or.inl rfl)

/-- C9 (code bug): the claim puts append + id allocation, the
session-summary update, the history read and the session-list read in one
shared critical section.  In the source only the append (lines 110-117)
and the history read (lines 149-156) hold `msgMu`: the session-directory
update of lines 120-126 runs after `msgMu.Unlock()` under no lock, and
`sessionsHandler` reads the directory under no lock.  Consequently the
state visible between the two phases of one loop iteration - here the
concrete output of `stampMsg`, which any concurrent reader may observe
since nothing excludes it - already contains the appended message
(log length 1) while the directory still holds only the untouched seed
session, an append without its matching summary update. -/
theorem c9_directory_ops_outside_lock :
    (([], SharedOp.summaryUpdate) ∈ wsLoopLocks) ∧
    (([], SharedOp.sessionListRead) ∈ sessionsHandlerLocks) ∧
    (stampMsg initState { ID := 0, From := "alice", To := "public-chat", Content := "hi",
                          Timestamp := 0, IsRead := false, Avatar := "" } 5).map
        (fun p => (p.1.sessions, p.1.messages.length)) = some ([initSession], 1) :=
  ⟨by decide, by decide, by decide⟩

/-- C10: closing a connection deletes the registry entry currently keyed
by its identity unconditionally: after registering `u` on handle `w1` and
again on handle `w2` (silent replacement, the live entry is `w2`'s), the
first connection's deferred deregistration removes the entry, leaving no
registry entry for `u` at all even though the `w2` connection is still
live. -/
theorem c10_deregister_unconditional_delete (st : ServerState) (u : String)
    (w1 w2 : Nat) :
    List.lookup u (register (register st u w1) u w2).users
        = some ⟨u, goAvatar u, w2⟩ ∧
    List.lookup u (deregister (register (register st u w1) u w2) u).users = none :=
  ⟨lookup_mapInsert _ u _, lookup_mapDelete _ u⟩
